import Mathlib

/-!
Verification development for the PMO (project-management office) repository.

The durable data model is declared in `src/database/schema.sql` (PostgreSQL);
the dashboard frontend lives under `src/frontend`.  The Rust backend referenced
by the Makefile (`backend/ # Rust Axum API server`) is not part of the source
tree, so the relational semantics below are translated from the schema's
declarative foreign-key actions (`ON DELETE CASCADE / SET NULL / RESTRICT`),
its `UNIQUE` constraints and its `update_updated_at_column` trigger, while the
API-level operations (`transitionTask`, `recordTime`, `listActivity`) are
modelled from the specification where noted.

Conventions: UUIDs become `Nat` identifiers, `TIMESTAMPTZ` becomes a `Nat`
tick, `DATE` a `String`, `REAL`/`DECIMAL` become `ℚ` (every value the UI can
submit is a quarter-hour multiple, hence a dyadic rational represented exactly
by the source's double arithmetic), and nullable columns become `Option`.
-/

namespace PMO

/-- Enum `user_role` from schema.sql. -/
inductive UserRole where
  | admin | manager | member
  deriving DecidableEq, Repr

/-- Enum `project_status` from schema.sql. -/
inductive ProjectStatus where
  | planning | active | onhold | completed | cancelled
  deriving DecidableEq, Repr

/-- Enum `priority` from schema.sql. -/
inductive Priority where
  | low | medium | high | critical
  deriving DecidableEq, Repr

/-- Enum `task_status` from schema.sql. -/
inductive TaskStatus where
  | todo | inprogress | review | done | blocked
  deriving DecidableEq, Repr

/-- Enum `team_member_role` from schema.sql. -/
inductive TeamMemberRole where
  | lead | member
  deriving DecidableEq, Repr

/-- Enum `notification_type` from schema.sql. -/
inductive NotificationType where
  | task_assigned | task_updated | task_completed | task_due_soon
  | project_updated | comment_added | mention
  deriving DecidableEq, Repr

/-- Activity actions as enumerated by the frontend `ActivityAction` type and
the seed data (`created`, `updated`, `deleted`, `status_changed`, `assigned`,
`commented`). -/
inductive ActivityAction where
  | created | updated | deleted | status_changed | assigned | commented
  deriving DecidableEq, Repr

/-- Structured `details` payload of an activity row (JSONB in the schema).
The seed data shows status changes carry a from/to pair. -/
inductive ActivityDetail where
  | statusChange (fromStatus toStatus : TaskStatus)
  | assigneeChange (fromUser toUser : Option Nat)
  | note (payload : String)
  deriving DecidableEq, Repr

/-- Row of table `users`. -/
structure UserRow where
  id : Nat
  email : String
  password_hash : String
  name : String
  role : UserRole
  avatar_url : Option String
  created_at : Nat
  updated_at : Nat
  deriving DecidableEq, Repr

/-- Row of table `teams` (`lead_id` is `ON DELETE SET NULL`). -/
structure TeamRow where
  id : Nat
  name : String
  description : Option String
  lead_id : Option Nat
  created_at : Nat
  updated_at : Nat
  deriving DecidableEq, Repr

/-- Row of table `team_members` (`UNIQUE(team_id, user_id)`, both FKs cascade). -/
structure TeamMemberRow where
  id : Nat
  team_id : Nat
  user_id : Nat
  role : TeamMemberRole
  joined_at : Nat
  deriving DecidableEq, Repr

/-- Row of table `projects` (`owner_id` is `ON DELETE RESTRICT`). -/
structure ProjectRow where
  id : Nat
  name : String
  description : Option String
  status : ProjectStatus
  priority : Priority
  start_date : Option Nat
  end_date : Option Nat
  budget : Option ℚ
  owner_id : Nat
  created_at : Nat
  updated_at : Nat
  deriving DecidableEq, Repr

/-- Row of table `project_members` (`UNIQUE(project_id, user_id)`, both FKs cascade). -/
structure ProjectMemberRow where
  id : Nat
  project_id : Nat
  user_id : Nat
  role : Option String
  joined_at : Nat
  deriving DecidableEq, Repr

/-- Row of table `milestones` (`project_id` cascades). -/
structure MilestoneRow where
  id : Nat
  project_id : Nat
  name : String
  description : Option String
  due_date : Option Nat
  completed : Bool
  created_at : Nat
  updated_at : Nat
  deriving DecidableEq, Repr

/-- Row of table `tasks` (`project_id` cascades, `milestone_id` and
`assignee_id` are `ON DELETE SET NULL`). -/
structure TaskRow where
  id : Nat
  project_id : Nat
  milestone_id : Option Nat
  title : String
  description : Option String
  status : TaskStatus
  priority : Priority
  assignee_id : Option Nat
  due_date : Option Nat
  estimated_hours : Option ℚ
  actual_hours : Option ℚ
  created_at : Nat
  updated_at : Nat
  deriving DecidableEq, Repr

/-- Row of table `task_comments` (both FKs cascade). -/
structure CommentRow where
  id : Nat
  task_id : Nat
  user_id : Nat
  content : String
  created_at : Nat
  updated_at : Nat
  deriving DecidableEq, Repr

/-- Row of table `activity_logs` (`user_id` is `ON DELETE SET NULL`,
`project_id` is `ON DELETE CASCADE`).  `seq` stands for the monotonically
increasing insertion sequence the specification uses as the pagination
tie-break (the schema's UUID primary key is opaque; the spec's cursor is
creation time plus insertion order). -/
structure ActivityLogRow where
  seq : Nat
  user_id : Option Nat
  project_id : Option Nat
  action : ActivityAction
  entity_type : String
  entity_id : Nat
  details : Option ActivityDetail
  created_at : Nat
  deriving DecidableEq, Repr

/-- Row of table `time_logs` (both FKs cascade). -/
structure TimeLogRow where
  id : Nat
  task_id : Nat
  user_id : Nat
  hours : ℚ
  date : String
  description : Option String
  created_at : Nat
  updated_at : Nat
  deriving DecidableEq, Repr

/-- Row of table `tags` (`name` is `UNIQUE`). -/
structure TagRow where
  id : Nat
  name : String
  color : String
  description : Option String
  created_at : Nat
  updated_at : Nat
  deriving DecidableEq, Repr

/-- Row of table `task_tags` (`UNIQUE(task_id, tag_id)`, both FKs cascade). -/
structure TaskTagRow where
  id : Nat
  task_id : Nat
  tag_id : Nat
  created_at : Nat
  deriving DecidableEq, Repr

/-- Row of table `attachments` (`task_id` and `uploaded_by` cascade). -/
structure AttachmentRow where
  id : Nat
  task_id : Nat
  uploaded_by : Nat
  filename : String
  original_filename : String
  content_type : String
  size_bytes : Nat
  storage_path : String
  created_at : Nat
  deriving DecidableEq, Repr

/-- Row of table `notifications` (`user_id` cascades). -/
structure NotificationRow where
  id : Nat
  user_id : Nat
  notification_type : NotificationType
  title : String
  message : String
  link : Option String
  is_read : Bool
  created_at : Nat
  deriving DecidableEq, Repr

/-- The durable store: one list per table of schema.sql, plus the insertion
counter backing `ActivityLogRow.seq` and freshly minted row ids. -/
structure Store where
  users : List UserRow
  teams : List TeamRow
  team_members : List TeamMemberRow
  projects : List ProjectRow
  project_members : List ProjectMemberRow
  milestones : List MilestoneRow
  tasks : List TaskRow
  task_comments : List CommentRow
  activity_logs : List ActivityLogRow
  time_logs : List TimeLogRow
  tags : List TagRow
  task_tags : List TaskTagRow
  attachments : List AttachmentRow
  notifications : List NotificationRow
  nextSeq : Nat
  deriving DecidableEq, Repr

/-- Error taxonomy of spec section 7: `NotFound`, `ValidationError`
(field out of domain or duplicate unique key), `ReferentialConflict`
(restrict-policy deletion blocked), `TransactionConflict`. -/
inductive DbError where
  | NotFound | ValidationError | ReferentialConflict | TransactionConflict
  deriving DecidableEq, Repr

/-- Transactional commit: a failed operation rolls back to the pre-state,
a successful one installs the produced state atomically. -/
def commit (s : Store) : Except DbError Store → Store
  | .ok s' => s'
  | .error _ => s

/-- Membership test used by the transitive part of a project cascade: is
`tid` the id of a task belonging to project `pid`?  (Children of such tasks
are removed by `ON DELETE CASCADE` on `tasks.id`.) -/
def taskInProject (s : Store) (pid tid : Nat) : Bool :=
  s.tasks.any (fun t => t.id = tid ∧ t.project_id = pid)

/-- Deletion of a project, translated from schema.sql: `project_members`,
`milestones`, `tasks` and `activity_logs` rows referencing the project are
removed (`ON DELETE CASCADE` on their `project_id` columns), and the removal
of the tasks transitively removes their `task_comments`, `task_tags`,
`attachments` and `time_logs` (`ON DELETE CASCADE` on `task_id`). -/
def deleteProject (s : Store) (pid : Nat) : Except DbError Store :=
  if s.projects.any (fun p => p.id = pid) then
    .ok { s with
      projects := s.projects.filter (fun p => ¬ p.id = pid)
      project_members := s.project_members.filter (fun m => ¬ m.project_id = pid)
      milestones := s.milestones.filter (fun m => ¬ m.project_id = pid)
      tasks := s.tasks.filter (fun t => ¬ t.project_id = pid)
      task_comments := s.task_comments.filter (fun c => ¬ taskInProject s pid c.task_id)
      task_tags := s.task_tags.filter (fun tt => ¬ taskInProject s pid tt.task_id)
      attachments := s.attachments.filter (fun a => ¬ taskInProject s pid a.task_id)
      time_logs := s.time_logs.filter (fun l => ¬ taskInProject s pid l.task_id)
      activity_logs := s.activity_logs.filter (fun a => ¬ a.project_id = some pid) }
  else .error .NotFound

/-- Deletion of a user, translated from schema.sql.  `projects.owner_id` is
`ON DELETE RESTRICT`, so the delete is rejected while any project is owned by
the user.  Otherwise: `teams.lead_id`, `tasks.assignee_id` and
`activity_logs.user_id` are `ON DELETE SET NULL` (the nullifying update fires
the `update_updated_at_column` trigger on `teams` and `tasks`, refreshing
`updated_at` to the current time; `activity_logs` has no such trigger), and
`team_members`, `project_members`, `task_comments`, `time_logs`,
`attachments` and `notifications` rows of the user are `ON DELETE CASCADE`. -/
def deleteUser (s : Store) (uid : Nat) (now : Nat) : Except DbError Store :=
  if s.users.any (fun u => u.id = uid) then
    if s.projects.any (fun p => p.owner_id = uid) then
      .error .ReferentialConflict
    else
      .ok { s with
        users := s.users.filter (fun u => ¬ u.id = uid)
        teams := s.teams.map (fun t =>
          if t.lead_id = some uid then { t with lead_id := none, updated_at := now } else t)
        tasks := s.tasks.map (fun t =>
          if t.assignee_id = some uid then { t with assignee_id := none, updated_at := now } else t)
        activity_logs := s.activity_logs.map (fun a =>
          if a.user_id = some uid then { a with user_id := none } else a)
        team_members := s.team_members.filter (fun m => ¬ m.user_id = uid)
        project_members := s.project_members.filter (fun m => ¬ m.user_id = uid)
        task_comments := s.task_comments.filter (fun c => ¬ c.user_id = uid)
        time_logs := s.time_logs.filter (fun l => ¬ l.user_id = uid)
        attachments := s.attachments.filter (fun a => ¬ a.uploaded_by = uid)
        notifications := s.notifications.filter (fun n => ¬ n.user_id = uid) }
  else .error .NotFound

/-- Deletion of a milestone, translated from schema.sql: the milestone row is
removed and `tasks.milestone_id` is `ON DELETE SET NULL` for every referencing
task.  The nullifying update fires the `update_tasks_updated_at` trigger
(`BEFORE UPDATE ON tasks ... update_updated_at_column`), which sets the task's
`updated_at` to the current time. -/
def deleteMilestone (s : Store) (mid : Nat) (now : Nat) : Except DbError Store :=
  if s.milestones.any (fun m => m.id = mid) then
    .ok { s with
      milestones := s.milestones.filter (fun m => ¬ m.id = mid)
      tasks := s.tasks.map (fun t =>
        if t.milestone_id = some mid then { t with milestone_id := none, updated_at := now } else t) }
  else .error .NotFound

/-- Insertion into `team_members`, translated from schema.sql: the
`UNIQUE(team_id, user_id)` constraint rejects a duplicate pair (a duplicate
unique key is a `ValidationError` per spec section 7), and the `NOT NULL
REFERENCES` columns require both sides to exist. -/
def insertTeamMember (s : Store) (r : TeamMemberRow) : Except DbError Store :=
  if s.team_members.any (fun x => x.team_id = r.team_id ∧ x.user_id = r.user_id) then
    .error .ValidationError
  else if s.teams.any (fun t => t.id = r.team_id) ∧ s.users.any (fun u => u.id = r.user_id) then
    .ok { s with team_members := r :: s.team_members }
  else .error .NotFound

/-- Insertion into `project_members`, translated from schema.sql:
`UNIQUE(project_id, user_id)` plus the two `NOT NULL REFERENCES` columns. -/
def insertProjectMember (s : Store) (r : ProjectMemberRow) : Except DbError Store :=
  if s.project_members.any (fun x => x.project_id = r.project_id ∧ x.user_id = r.user_id) then
    .error .ValidationError
  else if s.projects.any (fun p => p.id = r.project_id) ∧ s.users.any (fun u => u.id = r.user_id) then
    .ok { s with project_members := r :: s.project_members }
  else .error .NotFound

/-- Insertion into `task_tags`, translated from schema.sql:
`UNIQUE(task_id, tag_id)` plus the two `NOT NULL REFERENCES` columns. -/
def insertTaskTag (s : Store) (r : TaskTagRow) : Except DbError Store :=
  if s.task_tags.any (fun x => x.task_id = r.task_id ∧ x.tag_id = r.tag_id) then
    .error .ValidationError
  else if s.tasks.any (fun t => t.id = r.task_id) ∧ s.tags.any (fun t => t.id = r.tag_id) then
    .ok { s with task_tags := r :: s.task_tags }
  else .error .NotFound

/-- Insertion into `tags`, translated from schema.sql: `name` carries a
`UNIQUE` constraint (case-sensitive, as `VARCHAR UNIQUE` compares exact
strings). -/
def insertTag (s : Store) (r : TagRow) : Except DbError Store :=
  if s.tags.any (fun x => x.name = r.name) then
    .error .ValidationError
  else .ok { s with tags := r :: s.tags }

/-- Modelled from the spec: the backend task-transition handler (Rust Axum
server absent from the source tree).  Spec sections 4.3 and 6: any status may
be set to any other status in one call, the task's row is updated (firing the
`updated_at` trigger), and in the same atomic unit exactly one `status_changed`
ActivityEvent is appended carrying `{from, to}` with the pre- and post-call
statuses.  The event shape follows the seed rows of `activity_logs`. -/
def transitionTask (s : Store) (tid : Nat) (newStatus : TaskStatus)
    (actor : Nat) (now : Nat) : Except DbError Store :=
  match s.tasks.find? (fun t => t.id = tid) with
  | none => .error .NotFound
  | some t =>
    .ok { s with
      tasks := s.tasks.map (fun x =>
        if x.id = tid then { x with status := newStatus, updated_at := now } else x)
      activity_logs :=
        { seq := s.nextSeq
          user_id := some actor
          project_id := some t.project_id
          action := .status_changed
          entity_type := "task"
          entity_id := tid
          details := some (.statusChange t.status newStatus)
          created_at := now } :: s.activity_logs
      nextSeq := s.nextSeq + 1 }

/-- Hours domain check of spec sections 4.4 and 8: `0.25 ≤ hours ≤ 24` and
`hours` is an exact multiple of 0.25 (equivalently, `4 * hours` is an
integer).  The frontend's entry form carries the matching
`step="0.25" min="0.25" max="24"` attributes. -/
def validHours (h : ℚ) : Prop :=
  (1 : ℚ)/4 ≤ h ∧ h ≤ 24 ∧ (4 * h).den = 1

instance validHoursDecidable (h : ℚ) : Decidable (validHours h) :=
  inferInstanceAs (Decidable (_ ∧ _ ∧ _))

/-- Modelled from the spec: the backend `recordTime` handler (absent from the
source tree; only the schema's `time_logs` table and the form's
`min`/`max`/`step` hints are present).  Spec sections 4.4 and 6: the task must
exist and the hours domain is validated before anything is stored; a violation
is a `ValidationError` and creates no entry. -/
def recordTime (s : Store) (tid uid : Nat) (h : ℚ) (d : String)
    (desc : Option String) (now : Nat) : Except DbError Store :=
  if s.tasks.any (fun t => t.id = tid) then
    if validHours h then
      .ok { s with
        time_logs :=
          { id := s.nextSeq, task_id := tid, user_id := uid, hours := h,
            date := d, description := desc, created_at := now, updated_at := now }
            :: s.time_logs
        nextSeq := s.nextSeq + 1 }
    else .error .ValidationError
  else .error .NotFound

/-! Client-side time ledger, from `TimesheetPage` in
`src/frontend/src/store/auth.test.ts`: `handleAddEntry` prepends the created
entry to the displayed list, `handleDeleteEntry` filters it out by id, and
`getHoursForDate` sums hours with `reduce((sum, log) => sum + log.hours, 0)`
over a filtered list. -/

/-- Hours sum exactly as the source computes it:
`logs.reduce((sum, log) => sum + log.hours, 0)`. -/
def sumHours (logs : List TimeLogRow) : ℚ :=
  logs.foldl (fun sum l => sum + l.hours) 0

/-- From the source (`getHoursForDate`): total hours of the entries on a
given date. -/
def getHoursForDate (logs : List TimeLogRow) (d : String) : ℚ :=
  sumHours (logs.filter (fun l => l.date = d))

/-- Modelled from the spec: the Time Ledger read contract `total(task_id)`
(spec section 4.4; the backend is absent from the source tree).  Computed on
demand from the entry set with the same filter-and-reduce shape the frontend
uses for its per-date totals. -/
def taskTotal (logs : List TimeLogRow) (tid : Nat) : ℚ :=
  sumHours (logs.filter (fun l => l.task_id = tid))

/-- One client-visible ledger mutation: `handleAddEntry` (successful
`timeLogsApi.create` followed by `setTimeLogs([response.data, ...timeLogs])`)
or `handleDeleteEntry` (successful `timeLogsApi.delete` followed by
`setTimeLogs(timeLogs.filter((log) => log.id !== id))`). -/
inductive LedgerOp where
  | record (e : TimeLogRow)
  | remove (id : Nat)
  deriving DecidableEq, Repr

/-- Apply a single ledger mutation to the entry list, following the source. -/
def applyLedgerOp (logs : List TimeLogRow) : LedgerOp → List TimeLogRow
  | .record e => e :: logs
  | .remove i => logs.filter (fun l => ¬ l.id = i)

/-- Apply a whole call sequence, oldest call first. -/
def applyLedgerOps (logs : List TimeLogRow) (ops : List LedgerOp) : List TimeLogRow :=
  ops.foldl applyLedgerOp logs

/-- Does the remainder of the call sequence delete entry id `i`? -/
def deletedLater (ops : List LedgerOp) (i : Nat) : Bool :=
  ops.any (fun op => match op with | .remove j => j = i | .record _ => false)

/-- Independent characterisation of the entries surviving a call sequence:
those recorded at some point and not deleted by any later call. -/
def survivors : List LedgerOp → List TimeLogRow
  | [] => []
  | .record e :: rest => if deletedLater rest e.id then survivors rest else e :: survivors rest
  | .remove _ :: rest => survivors rest

/-! Activity recorder and its read contract.  The `activity_logs` table and
its `created_at DESC` index are in schema.sql; the list endpoint itself is
backend code absent from the source tree, so it is modelled from spec
section 4.5. -/

/-- Event `a` is strictly newer than event `b`: later creation timestamp, or
an equal timestamp with a later insertion sequence (the spec's tie-break). -/
def evAfter (a b : ActivityLogRow) : Prop :=
  b.created_at < a.created_at ∨ (a.created_at = b.created_at ∧ b.seq < a.seq)

instance evAfterDecidable : (a b : ActivityLogRow) → Decidable (evAfter a b) :=
  fun _ _ => inferInstanceAs (Decidable (_ ∨ _ ∧ _))

/-- Modelled from the spec: the Activity Recorder `append` (spec section 4.5).
The event receives the next insertion-sequence value and is stored newest
first. -/
def appendEvent (s : Store) (actor projectCtx : Option Nat) (act : ActivityAction)
    (etype : String) (eid : Nat) (det : Option ActivityDetail) (now : Nat) : Store :=
  { s with
    activity_logs :=
      { seq := s.nextSeq, user_id := actor, project_id := projectCtx, action := act,
        entity_type := etype, entity_id := eid, details := det, created_at := now }
        :: s.activity_logs
    nextSeq := s.nextSeq + 1 }

/-- Project filter of the list endpoint: no project means the global feed. -/
def matchesProject : Option Nat → ActivityLogRow → Bool
  | none, _ => true
  | some p, e => e.project_id = some p

/-- Cursor filter of the list endpoint: keep events strictly older than the
cursor position (creation time, then insertion sequence). -/
def beforeCursor : Option (Nat × Nat) → ActivityLogRow → Bool
  | none, _ => true
  | some (ts, sq), e => e.created_at < ts ∨ (e.created_at = ts ∧ e.seq < sq)

/-- Modelled from the spec: `listActivity(project_id?, limit, before?)`
(spec sections 4.5 and 6) — the newest-first event sequence of the project,
restricted to events strictly before the cursor, truncated to `limit`. -/
def listActivity (s : Store) (pid : Option Nat) (limit : Nat)
    (cur : Option (Nat × Nat)) : List ActivityLogRow :=
  (((s.activity_logs.filter (matchesProject pid)).filter (beforeCursor cur)).take limit)

/-! Kanban drag-and-drop, from `handleDrop` in
`src/frontend/src/app/(dashboard)/kanban/page.tsx`. -/

/-- Client-side task as displayed by the kanban board (the fields of the
frontend `Task` type that the board reads). -/
structure ClientTask where
  id : Nat
  project_id : Nat
  title : String
  status : TaskStatus
  priority : Priority
  assignee_id : Option Nat
  due_date : Option String
  deriving DecidableEq, Repr

/-- From the source (`handleDrop`): dropping `draggedTask` on the column of
`newStatus`.  No drag in progress, or a drop on the column already holding the
task, issues no update request and leaves the list alone.  Otherwise the list
is optimistically updated, the server is asked to persist the change, and on
failure the optimistic change is reverted to the status captured at drag
start.  Returns the resulting task list and whether an update request was
issued. -/
def handleDrop (tasks : List ClientTask) (draggedTask : Option ClientTask)
    (newStatus : TaskStatus) (serverOk : Bool) : List ClientTask × Bool :=
  match draggedTask with
  | none => (tasks, false)
  | some d =>
    if d.status = newStatus then (tasks, false)
    else
      let optimistic := tasks.map (fun t =>
        if t.id = d.id then { t with status := newStatus } else t)
      if serverOk then (optimistic, true)
      else
        (optimistic.map (fun t =>
          if t.id = d.id then { t with status := d.status } else t), true)

/-! Helper lemmas. -/

/-- Mapping a function that fixes every element of a list is the identity. -/
theorem map_id_of_mem {α : Type} {f : α → α} {l : List α}
    (h : ∀ x ∈ l, f x = x) : l.map f = l := by
  induction l with
  | nil => rfl
  | cons a t ih =>
    simp only [List.map_cons]
    rw [h a (by simp), ih (fun x hx => h x (by simp [hx]))]

/-- The source's running `reduce` sum shifted by its accumulator. -/
theorem sumHours_shift (logs : List TimeLogRow) (a : ℚ) :
    logs.foldl (fun sum l => sum + l.hours) a = a + sumHours logs := by
  induction logs generalizing a with
  | nil => simp [sumHours]
  | cons e t ih =>
    simp only [sumHours, List.foldl_cons]
    rw [ih, ih]
    ring

/-- Unfolding `sumHours` over a freshly recorded entry. -/
theorem sumHours_cons (e : TimeLogRow) (logs : List TimeLogRow) :
    sumHours (e :: logs) = e.hours + sumHours logs := by
  show List.foldl _ 0 (e :: logs) = _
  rw [List.foldl_cons, zero_add, sumHours_shift]

/-- Unfolding `taskTotal` over a freshly recorded entry. -/
theorem taskTotal_cons (e : TimeLogRow) (logs : List TimeLogRow) (tid : Nat) :
    taskTotal (e :: logs) tid
      = (if e.task_id = tid then e.hours else 0) + taskTotal logs tid := by
  by_cases h : e.task_id = tid
  · simp [taskTotal, List.filter_cons, h, sumHours_cons]
  · simp [taskTotal, List.filter_cons, h]

/-- A leading record call deletes nothing. -/
theorem deletedLater_record (e : TimeLogRow) (rest : List LedgerOp) (i : Nat) :
    deletedLater (.record e :: rest) i = deletedLater rest i := by
  simp [deletedLater]

/-- A leading delete call deletes its id, and whatever the rest deletes. -/
theorem deletedLater_remove (j : Nat) (rest : List LedgerOp) (i : Nat) :
    deletedLater (.remove j :: rest) i = (decide (j = i) || deletedLater rest i) := by
  simp [deletedLater]

/-- Entries of a pre-existing list that the call sequence never deletes. -/
def purge (ops : List LedgerOp) (logs : List TimeLogRow) : List TimeLogRow :=
  logs.filter (fun l => !deletedLater ops l.id)

/-- Replaying any call sequence decomposes the resulting total into the
surviving pre-existing entries plus the surviving recorded entries. -/
theorem applyLedgerOps_total (ops : List LedgerOp) :
    ∀ (logs : List TimeLogRow) (tid : Nat),
      taskTotal (applyLedgerOps logs ops) tid
        = taskTotal (purge ops logs) tid + taskTotal (survivors ops) tid := by
  induction ops with
  | nil =>
    intro logs tid
    simp [applyLedgerOps, purge, survivors, taskTotal, sumHours, deletedLater]
  | cons op rest ih =>
    intro logs tid
    cases op with
    | record e =>
      show taskTotal (applyLedgerOps (e :: logs) rest) tid = _
      rw [ih]
      simp only [purge, deletedLater_record, survivors]
      cases hb : deletedLater rest e.id with
      | true => simp [List.filter_cons, hb]
      | false =>
        simp [List.filter_cons, hb, taskTotal_cons]
        ring
    | remove i =>
      show taskTotal (applyLedgerOps (logs.filter (fun l => ¬ l.id = i)) rest) tid = _
      rw [ih]
      simp only [purge, survivors]
      have hflt :
          (logs.filter (fun l => ¬ l.id = i)).filter (fun l => !deletedLater rest l.id)
            = logs.filter (fun l => !deletedLater (.remove i :: rest) l.id) := by
        rw [List.filter_filter]
        apply List.filter_congr
        intro a _
        by_cases h : i = a.id
        · simp [deletedLater_remove, h]
        · have h' : ¬ a.id = i := fun hc => h hc.symm
          simp [deletedLater_remove, h, h']
      rw [hflt]

/-- Scenario entry of spec section 8: `TimeEntry(T, U, 2.5, "2024-03-01")`. -/
def entry1 : TimeLogRow :=
  { id := 1, task_id := 7, user_id := 2, hours := 5/2, date := "2024-03-01",
    description := none, created_at := 0, updated_at := 0 }

/-- Scenario entry of spec section 8: `TimeEntry(T, U, 1.25, "2024-03-01")`. -/
def entry2 : TimeLogRow :=
  { id := 2, task_id := 7, user_id := 2, hours := 5/4, date := "2024-03-01",
    description := none, created_at := 0, updated_at := 0 }

/-- C5: for every task and every finite sequence of prior record and delete
calls in any order, the Time Ledger total for that task equals the exact sum
of the hours of the TimeEntry rows for that task that have not been deleted,
with no rounding; recording 2.5 then 1.25 yields a total of exactly 3.75, and
a delete is reflected immediately in subsequent totals. -/
theorem C5_ledger_total_exact :
    (∀ (ops : List LedgerOp) (tid : Nat),
        taskTotal (applyLedgerOps [] ops) tid = taskTotal (survivors ops) tid) ∧
    (∀ (logs : List TimeLogRow) (i : Nat) (tid : Nat),
        taskTotal (applyLedgerOp logs (.remove i)) tid
          = taskTotal (logs.filter (fun l => ¬ l.id = i)) tid) ∧
    taskTotal (applyLedgerOps [] [.record entry1, .record entry2]) 7 = 15/4 ∧
    getHoursForDate (applyLedgerOps [] [.record entry1, .record entry2]) "2024-03-01"
      = 15/4 := by
  refine ⟨?_, ?_, ?_, ?_⟩
  · intro ops tid
    rw [applyLedgerOps_total]
    simp [purge, taskTotal, sumHours]
  · intro logs i tid
    rfl
  · norm_num [applyLedgerOps, applyLedgerOp, taskTotal, sumHours, entry1, entry2]
  · norm_num [applyLedgerOps, applyLedgerOp, getHoursForDate, sumHours, entry1, entry2]

/-! Concrete store used by the witnesses, shaped after the seed data:
two projects owned by user 1, users 2 and 3 who own nothing, and a
representative row in every remaining table. -/

/-- Task 7 of project 1, attached to milestone 5, assigned to user 2. -/
def exTask7 : TaskRow :=
  { id := 7, project_id := 1, milestone_id := some 5, title := "Setup project",
    description := none, status := .todo, priority := .high,
    assignee_id := some 2, due_date := none, estimated_hours := none,
    actual_hours := none, created_at := 0, updated_at := 0 }

/-- Task 8 of project 2, attached to milestone 6, assigned to user 3. -/
def exTask8 : TaskRow :=
  { id := 8, project_id := 2, milestone_id := some 6, title := "Homepage",
    description := none, status := .inprogress, priority := .medium,
    assignee_id := some 3, due_date := none, estimated_hours := none,
    actual_hours := none, created_at := 0, updated_at := 0 }

/-- Newest event of the example feed (project 1, timestamp 12, sequence 3). -/
def exEv3 : ActivityLogRow :=
  { seq := 3, user_id := some 2, project_id := some 1, action := .created,
    entity_type := "project", entity_id := 1, details := none, created_at := 12 }

/-- Project-1 event at timestamp 10, sequence 2 (ties with `exEv1`). -/
def exEv2 : ActivityLogRow :=
  { seq := 2, user_id := some 3, project_id := some 1, action := .status_changed,
    entity_type := "task", entity_id := 7,
    details := some (.statusChange .todo .done), created_at := 10 }

/-- Project-1 event at timestamp 10, sequence 1 (ties with `exEv2`). -/
def exEv1 : ActivityLogRow :=
  { seq := 1, user_id := some 1, project_id := some 1, action := .updated,
    entity_type := "task", entity_id := 7, details := none, created_at := 10 }

/-- Oldest event of the example feed (project 2, timestamp 5, sequence 0). -/
def exEv0 : ActivityLogRow :=
  { seq := 0, user_id := some 3, project_id := some 2, action := .created,
    entity_type := "task", entity_id := 8, details := none, created_at := 5 }

/-- The running concrete store. -/
def exS : Store :=
  { users := [
      { id := 1, email := "admin@pmo.local", password_hash := "h1", name := "Admin",
        role := .admin, avatar_url := none, created_at := 0, updated_at := 0 },
      { id := 2, email := "dev1@pmo.local", password_hash := "h2", name := "Dev One",
        role := .member, avatar_url := none, created_at := 0, updated_at := 0 },
      { id := 3, email := "dev2@pmo.local", password_hash := "h3", name := "Dev Two",
        role := .member, avatar_url := none, created_at := 0, updated_at := 0 }]
    teams := [
      { id := 1, name := "Engineering", description := none, lead_id := some 2,
        created_at := 0, updated_at := 0 },
      { id := 2, name := "Design", description := none, lead_id := some 3,
        created_at := 0, updated_at := 0 }]
    team_members := [
      { id := 1, team_id := 1, user_id := 2, role := .lead, joined_at := 0 },
      { id := 2, team_id := 1, user_id := 3, role := .member, joined_at := 0 }]
    projects := [
      { id := 1, name := "Website Redesign", description := none, status := .active,
        priority := .high, start_date := none, end_date := none, budget := none,
        owner_id := 1, created_at := 0, updated_at := 0 },
      { id := 2, name := "Mobile App", description := none, status := .planning,
        priority := .critical, start_date := none, end_date := none, budget := none,
        owner_id := 1, created_at := 0, updated_at := 0 }]
    project_members := [
      { id := 1, project_id := 1, user_id := 2, role := some "Frontend Dev", joined_at := 0 },
      { id := 2, project_id := 2, user_id := 3, role := none, joined_at := 0 }]
    milestones := [
      { id := 5, project_id := 1, name := "Design Phase", description := none,
        due_date := none, completed := false, created_at := 0, updated_at := 0 },
      { id := 6, project_id := 2, name := "Launch", description := none,
        due_date := none, completed := false, created_at := 0, updated_at := 0 }]
    tasks := [exTask7, exTask8]
    task_comments := [
      { id := 1, task_id := 7, user_id := 2, content := "started on it",
        created_at := 0, updated_at := 0 },
      { id := 2, task_id := 8, user_id := 3, content := "ack",
        created_at := 0, updated_at := 0 }]
    activity_logs := [exEv3, exEv2, exEv1, exEv0]
    time_logs := [
      { id := 1, task_id := 7, user_id := 2, hours := 3, date := "2024-03-01",
        description := none, created_at := 0, updated_at := 0 },
      { id := 2, task_id := 8, user_id := 3, hours := 2, date := "2024-03-02",
        description := none, created_at := 0, updated_at := 0 }]
    tags := [
      { id := 1, name := "ui", color := "#6B7280", description := none,
        created_at := 0, updated_at := 0 },
      { id := 2, name := "api", color := "#6B7280", description := none,
        created_at := 0, updated_at := 0 }]
    task_tags := [{ id := 1, task_id := 7, tag_id := 1, created_at := 0 }]
    attachments := [
      { id := 1, task_id := 7, uploaded_by := 2, filename := "a.png",
        original_filename := "a.png", content_type := "image/png",
        size_bytes := 100, storage_path := "store/a", created_at := 0 }]
    notifications := [
      { id := 1, user_id := 3, notification_type := .task_assigned, title := "hi",
        message := "assigned", link := none, is_read := false, created_at := 0 }]
    nextSeq := 20 }

/-- Finding by a key that an update function preserves commutes with mapping
the update over the list. -/
theorem find?_map_fix {α : Type} (f : α → α) (p : α → Bool) (l : List α)
    (hp : ∀ x, p (f x) = p x) :
    (l.map f).find? p = (l.find? p).map f := by
  rw [List.find?_map]
  have hcmp : p ∘ f = p := funext hp
  rw [hcmp]

/-- C1: for every project deletion, the deletion removes every task,
milestone, project membership and activity event referencing that project:
after the operation commits, no such row survives in the store. -/
theorem C1_project_delete_no_survivors (s : Store) (pid : Nat) (s' : Store)
    (hdel : deleteProject s pid = .ok s') :
    (∀ t ∈ s'.tasks, ¬ t.project_id = pid) ∧
    (∀ m ∈ s'.milestones, ¬ m.project_id = pid) ∧
    (∀ m ∈ s'.project_members, ¬ m.project_id = pid) ∧
    (∀ a ∈ s'.activity_logs, ¬ a.project_id = some pid) := by
  unfold deleteProject at hdel
  split at hdel
  · injection hdel with hdel
    subst hdel
    refine ⟨?_, ?_, ?_, ?_⟩ <;> intro x hx <;>
      simp only [List.mem_filter, decide_eq_true_eq] at hx <;> exact hx.2
  · simp at hdel

/-- Witness for C1 at the concrete store: after deleting project 1 no task,
milestone, membership or event of project 1 survives. -/
theorem C1_project_delete_no_survivors_witness :
    (∀ t ∈ (commit exS (deleteProject exS 1)).tasks, ¬ t.project_id = 1) ∧
    (∀ m ∈ (commit exS (deleteProject exS 1)).milestones, ¬ m.project_id = 1) ∧
    (∀ m ∈ (commit exS (deleteProject exS 1)).project_members, ¬ m.project_id = 1) ∧
    (∀ a ∈ (commit exS (deleteProject exS 1)).activity_logs, ¬ a.project_id = some 1) :=
  C1_project_delete_no_survivors exS 1 (commit exS (deleteProject exS 1)) rfl

/-- C2: for every user who owns at least one project, a delete request for
that user fails with `ReferentialConflict` and the state is unchanged on that
error: the user, each owned project and all tasks remain exactly as before. -/
theorem C2_owner_delete_blocked (s : Store) (uid now : Nat)
    (huser : s.users.any (fun u => u.id = uid) = true)
    (howns : s.projects.any (fun p => p.owner_id = uid) = true) :
    deleteUser s uid now = .error .ReferentialConflict ∧
    commit s (deleteUser s uid now) = s ∧
    (commit s (deleteUser s uid now)).users = s.users ∧
    (commit s (deleteUser s uid now)).projects = s.projects ∧
    (commit s (deleteUser s uid now)).tasks = s.tasks := by
  have h1 : deleteUser s uid now = .error .ReferentialConflict := by
    unfold deleteUser
    rw [if_pos huser, if_pos howns]
  refine ⟨h1, ?_, ?_, ?_, ?_⟩ <;> rw [h1] <;> rfl

/-- Witness for C2 at the concrete store: user 1 owns projects 1 and 2, so
deleting user 1 is rejected and the store is untouched. -/
theorem C2_owner_delete_blocked_witness :
    deleteUser exS 1 4 = .error .ReferentialConflict ∧
    commit exS (deleteUser exS 1 4) = exS ∧
    (commit exS (deleteUser exS 1 4)).users = exS.users ∧
    (commit exS (deleteUser exS 1 4)).projects = exS.projects ∧
    (commit exS (deleteUser exS 1 4)).tasks = exS.tasks :=
  C2_owner_delete_blocked exS 1 4 rfl rfl

/-- C7: for every user deletion where the user owns zero projects, the
deletion succeeds and commits one all-or-nothing state in which every team
whose lead was the user survives with `lead_id` set to null, every task
assigned to the user survives with `assignee_id` set to null, every activity
event of the user survives with its actor set to null (no team, task or event
is deleted and rows not referencing the user are untouched), the user's team
memberships, project memberships, comments, time entries, attachment metadata
and notifications are removed, and no reference to the user dangles. -/
theorem C7_user_delete_nullifies_and_cascades (s : Store) (uid now : Nat)
    (huser : s.users.any (fun u => u.id = uid) = true)
    (hfree : s.projects.any (fun p => p.owner_id = uid) = false) :
    deleteUser s uid now = .ok (commit s (deleteUser s uid now)) ∧
    (commit s (deleteUser s uid now)).teams.length = s.teams.length ∧
    (∀ t ∈ s.teams, t.lead_id = some uid →
      { t with lead_id := none, updated_at := now }
        ∈ (commit s (deleteUser s uid now)).teams) ∧
    (∀ t ∈ s.teams, ¬ t.lead_id = some uid →
      t ∈ (commit s (deleteUser s uid now)).teams) ∧
    (∀ t ∈ (commit s (deleteUser s uid now)).teams, ¬ t.lead_id = some uid) ∧
    (commit s (deleteUser s uid now)).tasks.length = s.tasks.length ∧
    (∀ t ∈ s.tasks, t.assignee_id = some uid →
      { t with assignee_id := none, updated_at := now }
        ∈ (commit s (deleteUser s uid now)).tasks) ∧
    (∀ t ∈ s.tasks, ¬ t.assignee_id = some uid →
      t ∈ (commit s (deleteUser s uid now)).tasks) ∧
    (∀ t ∈ (commit s (deleteUser s uid now)).tasks, ¬ t.assignee_id = some uid) ∧
    (commit s (deleteUser s uid now)).activity_logs.length
      = s.activity_logs.length ∧
    (∀ a ∈ s.activity_logs, a.user_id = some uid →
      { a with user_id := none } ∈ (commit s (deleteUser s uid now)).activity_logs) ∧
    (∀ a ∈ s.activity_logs, ¬ a.user_id = some uid →
      a ∈ (commit s (deleteUser s uid now)).activity_logs) ∧
    (∀ a ∈ (commit s (deleteUser s uid now)).activity_logs, ¬ a.user_id = some uid) ∧
    (∀ u ∈ (commit s (deleteUser s uid now)).users, ¬ u.id = uid) ∧
    (∀ m ∈ (commit s (deleteUser s uid now)).team_members, ¬ m.user_id = uid) ∧
    (∀ m ∈ (commit s (deleteUser s uid now)).project_members, ¬ m.user_id = uid) ∧
    (∀ c ∈ (commit s (deleteUser s uid now)).task_comments, ¬ c.user_id = uid) ∧
    (∀ l ∈ (commit s (deleteUser s uid now)).time_logs, ¬ l.user_id = uid) ∧
    (∀ a ∈ (commit s (deleteUser s uid now)).attachments, ¬ a.uploaded_by = uid) ∧
    (∀ n ∈ (commit s (deleteUser s uid now)).notifications, ¬ n.user_id = uid) ∧
    (commit s (deleteUser s uid now)).projects = s.projects := by
  have hfree' : ¬ (s.projects.any (fun p => p.owner_id = uid)) = true := by
    rw [hfree]
    exact Bool.false_ne_true
  have hok : deleteUser s uid now = .ok { s with
      users := s.users.filter (fun u => ¬ u.id = uid)
      teams := s.teams.map (fun t =>
        if t.lead_id = some uid then { t with lead_id := none, updated_at := now } else t)
      tasks := s.tasks.map (fun t =>
        if t.assignee_id = some uid then
          { t with assignee_id := none, updated_at := now } else t)
      activity_logs := s.activity_logs.map (fun a =>
        if a.user_id = some uid then { a with user_id := none } else a)
      team_members := s.team_members.filter (fun m => ¬ m.user_id = uid)
      project_members := s.project_members.filter (fun m => ¬ m.user_id = uid)
      task_comments := s.task_comments.filter (fun c => ¬ c.user_id = uid)
      time_logs := s.time_logs.filter (fun l => ¬ l.user_id = uid)
      attachments := s.attachments.filter (fun a => ¬ a.uploaded_by = uid)
      notifications := s.notifications.filter (fun n => ¬ n.user_id = uid) } := by
    unfold deleteUser
    rw [if_pos huser, if_neg hfree']
  rw [hok]
  refine ⟨rfl, ?_, ?_, ?_, ?_, ?_, ?_, ?_, ?_, ?_, ?_, ?_, ?_, ?_, ?_, ?_, ?_,
    ?_, ?_, ?_, rfl⟩
  · show (s.teams.map _).length = s.teams.length
    rw [List.length_map]
  · intro t ht hl
    show _ ∈ s.teams.map (fun t =>
      if t.lead_id = some uid then { t with lead_id := none, updated_at := now } else t)
    have hmem := List.mem_map_of_mem (fun t : TeamRow =>
      if t.lead_id = some uid then { t with lead_id := none, updated_at := now } else t) ht
    simp only [if_pos hl] at hmem
    exact hmem
  · intro t ht hl
    show _ ∈ s.teams.map (fun t =>
      if t.lead_id = some uid then { t with lead_id := none, updated_at := now } else t)
    have hmem := List.mem_map_of_mem (fun t : TeamRow =>
      if t.lead_id = some uid then { t with lead_id := none, updated_at := now } else t) ht
    simp only [if_neg hl] at hmem
    exact hmem
  · intro x hx
    replace hx : x ∈ s.teams.map (fun t =>
      if t.lead_id = some uid then { t with lead_id := none, updated_at := now } else t) := hx
    simp only [List.mem_map] at hx
    obtain ⟨y, _, rfl⟩ := hx
    by_cases h : y.lead_id = some uid <;> simp [h]
  · show (s.tasks.map _).length = s.tasks.length
    rw [List.length_map]
  · intro t ht hl
    show _ ∈ s.tasks.map (fun t =>
      if t.assignee_id = some uid then
        { t with assignee_id := none, updated_at := now } else t)
    have hmem := List.mem_map_of_mem (fun t : TaskRow =>
      if t.assignee_id = some uid then
        { t with assignee_id := none, updated_at := now } else t) ht
    simp only [if_pos hl] at hmem
    exact hmem
  · intro t ht hl
    show _ ∈ s.tasks.map (fun t =>
      if t.assignee_id = some uid then
        { t with assignee_id := none, updated_at := now } else t)
    have hmem := List.mem_map_of_mem (fun t : TaskRow =>
      if t.assignee_id = some uid then
        { t with assignee_id := none, updated_at := now } else t) ht
    simp only [if_neg hl] at hmem
    exact hmem
  · intro x hx
    replace hx : x ∈ s.tasks.map (fun t =>
      if t.assignee_id = some uid then
        { t with assignee_id := none, updated_at := now } else t) := hx
    simp only [List.mem_map] at hx
    obtain ⟨y, _, rfl⟩ := hx
    by_cases h : y.assignee_id = some uid <;> simp [h]
  · show (s.activity_logs.map _).length = s.activity_logs.length
    rw [List.length_map]
  · intro a ha hl
    show _ ∈ s.activity_logs.map (fun a =>
      if a.user_id = some uid then { a with user_id := none } else a)
    have hmem := List.mem_map_of_mem (fun a : ActivityLogRow =>
      if a.user_id = some uid then { a with user_id := none } else a) ha
    simp only [if_pos hl] at hmem
    exact hmem
  · intro a ha hl
    show _ ∈ s.activity_logs.map (fun a =>
      if a.user_id = some uid then { a with user_id := none } else a)
    have hmem := List.mem_map_of_mem (fun a : ActivityLogRow =>
      if a.user_id = some uid then { a with user_id := none } else a) ha
    simp only [if_neg hl] at hmem
    exact hmem
  · intro x hx
    replace hx : x ∈ s.activity_logs.map (fun a =>
      if a.user_id = some uid then { a with user_id := none } else a) := hx
    simp only [List.mem_map] at hx
    obtain ⟨y, _, rfl⟩ := hx
    by_cases h : y.user_id = some uid <;> simp [h]
  · intro x hx
    replace hx : x ∈ s.users.filter (fun u => ¬ u.id = uid) := hx
    simp only [List.mem_filter, decide_eq_true_eq] at hx
    exact hx.2
  · intro x hx
    replace hx : x ∈ s.team_members.filter (fun m => ¬ m.user_id = uid) := hx
    simp only [List.mem_filter, decide_eq_true_eq] at hx
    exact hx.2
  · intro x hx
    replace hx : x ∈ s.project_members.filter (fun m => ¬ m.user_id = uid) := hx
    simp only [List.mem_filter, decide_eq_true_eq] at hx
    exact hx.2
  · intro x hx
    replace hx : x ∈ s.task_comments.filter (fun c => ¬ c.user_id = uid) := hx
    simp only [List.mem_filter, decide_eq_true_eq] at hx
    exact hx.2
  · intro x hx
    replace hx : x ∈ s.time_logs.filter (fun l => ¬ l.user_id = uid) := hx
    simp only [List.mem_filter, decide_eq_true_eq] at hx
    exact hx.2
  · intro x hx
    replace hx : x ∈ s.attachments.filter (fun a => ¬ a.uploaded_by = uid) := hx
    simp only [List.mem_filter, decide_eq_true_eq] at hx
    exact hx.2
  · intro x hx
    replace hx : x ∈ s.notifications.filter (fun n => ¬ n.user_id = uid) := hx
    simp only [List.mem_filter, decide_eq_true_eq] at hx
    exact hx.2

/-- Witness for C7 at the concrete store: user 3 exists and owns no project;
the deletion succeeds, team 2 survives with its lead nullified, task 8
survives with its assignee nullified, the user's events survive with the
actor nullified, untouched rows persist unchanged, the user's membership,
comment, time-log and notification rows are removed, and the projects are
untouched. -/
theorem C7_user_delete_nullifies_and_cascades_witness :
    deleteUser exS 3 9 = .ok (commit exS (deleteUser exS 3 9)) ∧
    (commit exS (deleteUser exS 3 9)).teams.length = exS.teams.length ∧
    (∀ t ∈ exS.teams, t.lead_id = some 3 →
      { t with lead_id := none, updated_at := 9 }
        ∈ (commit exS (deleteUser exS 3 9)).teams) ∧
    (∀ t ∈ exS.teams, ¬ t.lead_id = some 3 →
      t ∈ (commit exS (deleteUser exS 3 9)).teams) ∧
    (∀ t ∈ (commit exS (deleteUser exS 3 9)).teams, ¬ t.lead_id = some 3) ∧
    (commit exS (deleteUser exS 3 9)).tasks.length = exS.tasks.length ∧
    (∀ t ∈ exS.tasks, t.assignee_id = some 3 →
      { t with assignee_id := none, updated_at := 9 }
        ∈ (commit exS (deleteUser exS 3 9)).tasks) ∧
    (∀ t ∈ exS.tasks, ¬ t.assignee_id = some 3 →
      t ∈ (commit exS (deleteUser exS 3 9)).tasks) ∧
    (∀ t ∈ (commit exS (deleteUser exS 3 9)).tasks, ¬ t.assignee_id = some 3) ∧
    (commit exS (deleteUser exS 3 9)).activity_logs.length
      = exS.activity_logs.length ∧
    (∀ a ∈ exS.activity_logs, a.user_id = some 3 →
      { a with user_id := none } ∈ (commit exS (deleteUser exS 3 9)).activity_logs) ∧
    (∀ a ∈ exS.activity_logs, ¬ a.user_id = some 3 →
      a ∈ (commit exS (deleteUser exS 3 9)).activity_logs) ∧
    (∀ a ∈ (commit exS (deleteUser exS 3 9)).activity_logs, ¬ a.user_id = some 3) ∧
    (∀ u ∈ (commit exS (deleteUser exS 3 9)).users, ¬ u.id = 3) ∧
    (∀ m ∈ (commit exS (deleteUser exS 3 9)).team_members, ¬ m.user_id = 3) ∧
    (∀ m ∈ (commit exS (deleteUser exS 3 9)).project_members, ¬ m.user_id = 3) ∧
    (∀ c ∈ (commit exS (deleteUser exS 3 9)).task_comments, ¬ c.user_id = 3) ∧
    (∀ l ∈ (commit exS (deleteUser exS 3 9)).time_logs, ¬ l.user_id = 3) ∧
    (∀ a ∈ (commit exS (deleteUser exS 3 9)).attachments, ¬ a.uploaded_by = 3) ∧
    (∀ n ∈ (commit exS (deleteUser exS 3 9)).notifications, ¬ n.user_id = 3) ∧
    (commit exS (deleteUser exS 3 9)).projects = exS.projects :=
  C7_user_delete_nullifies_and_cascades exS 3 9 rfl rfl

/-- C8 (amended): deleting a milestone nullifies `milestone_id` on every
referencing task; the task itself is not deleted and every field other than
`milestone_id` and `updated_at` is unchanged, while `updated_at` is refreshed
to the deletion time because the `ON DELETE SET NULL` referential update
fires the `update_tasks_updated_at` trigger. -/
theorem C8_milestone_delete_nullifies (s : Store) (mid now : Nat) (s' : Store)
    (hdel : deleteMilestone s mid now = .ok s') (tid : Nat) (t : TaskRow)
    (hfind : s.tasks.find? (fun x => x.id = tid) = some t)
    (hms : t.milestone_id = some mid) :
    (∀ m ∈ s'.milestones, ¬ m.id = mid) ∧
    s'.tasks.find? (fun x => x.id = tid)
      = some { t with milestone_id := none, updated_at := now } ∧
    s'.tasks.length = s.tasks.length := by
  unfold deleteMilestone at hdel
  split at hdel
  · injection hdel with hdel
    subst hdel
    refine ⟨?_, ?_, ?_⟩
    · intro m hm
      simp only [List.mem_filter, decide_eq_true_eq] at hm
      exact hm.2
    · show (s.tasks.map _).find? _ = _
      rw [find?_map_fix]
      · rw [hfind]
        simp [hms]
      · intro x
        by_cases h : x.milestone_id = some mid <;> simp [h]
    · show (s.tasks.map _).length = s.tasks.length
      rw [List.length_map]
  · simp at hdel

/-- Witness for the amended C8 at the concrete store: deleting milestone 5 at
time 1 keeps task 7, nullifies its `milestone_id` and stamps `updated_at`. -/
theorem C8_milestone_delete_nullifies_witness :
    (∀ m ∈ (commit exS (deleteMilestone exS 5 1)).milestones, ¬ m.id = 5) ∧
    (commit exS (deleteMilestone exS 5 1)).tasks.find? (fun x => x.id = 7)
      = some { exTask7 with milestone_id := none, updated_at := 1 } ∧
    (commit exS (deleteMilestone exS 5 1)).tasks.length = exS.tasks.length :=
  C8_milestone_delete_nullifies exS 5 1 (commit exS (deleteMilestone exS 5 1)) rfl 7
    exTask7 rfl rfl

/-- Counterexample to C8 as stated: deleting milestone 5 at time 1 leaves
task 7 alive with `milestone_id = null`, but the task is NOT otherwise
unchanged — its `updated_at` moves from 0 to 1, refreshed by the
`update_tasks_updated_at` trigger fired by the `SET NULL` update. -/
theorem C8_trigger_counterexample :
    exTask7.updated_at = 0 ∧
    (commit exS (deleteMilestone exS 5 1)).tasks.find? (fun x => x.id = 7)
      = some { exTask7 with milestone_id := none, updated_at := 1 } ∧
    ¬ (commit exS (deleteMilestone exS 5 1)).tasks.find? (fun x => x.id = 7)
      = some { exTask7 with milestone_id := none } := by
  refine ⟨rfl, rfl, ?_⟩
  intro h
  have h2 := Option.some.inj h
  have h3 := congrArg TaskRow.updated_at h2
  simp [exTask7] at h3

/-- C4: every successful task status transition appends exactly one new
activity event of action `status_changed` whose detail carries the task's
status immediately before the call and the status immediately after it, in
the same atomic unit as the status update itself. -/
theorem C4_transition_appends_one_event (s : Store) (tid : Nat) (st : TaskStatus)
    (actor now : Nat) (t : TaskRow)
    (hfind : s.tasks.find? (fun x => x.id = tid) = some t) :
    transitionTask s tid st actor now
      = .ok (commit s (transitionTask s tid st actor now)) ∧
    (commit s (transitionTask s tid st actor now)).activity_logs
      = { seq := s.nextSeq, user_id := some actor, project_id := some t.project_id,
          action := .status_changed, entity_type := "task", entity_id := tid,
          details := some (.statusChange t.status st), created_at := now }
          :: s.activity_logs ∧
    (commit s (transitionTask s tid st actor now)).tasks.find? (fun x => x.id = tid)
      = some { t with status := st, updated_at := now } := by
  have hok : transitionTask s tid st actor now = .ok { s with
      tasks := s.tasks.map (fun x =>
        if x.id = tid then { x with status := st, updated_at := now } else x)
      activity_logs :=
        { seq := s.nextSeq, user_id := some actor, project_id := some t.project_id,
          action := .status_changed, entity_type := "task", entity_id := tid,
          details := some (.statusChange t.status st), created_at := now }
          :: s.activity_logs
      nextSeq := s.nextSeq + 1 } := by
    unfold transitionTask
    rw [hfind]
  rw [hok]
  refine ⟨rfl, rfl, ?_⟩
  show (s.tasks.map _).find? _ = _
  rw [find?_map_fix]
  · rw [hfind]
    have hid : t.id = tid := by simpa using List.find?_some hfind
    simp [hid]
  · intro x
    by_cases h : x.id = tid <;> simp [h]

/-- Witness for C4 at the concrete store: moving task 7 (status `todo`) to
`done` appends exactly one `status_changed` event with from `todo`, to
`done`, and the committed task 7 has status `done`. -/
theorem C4_transition_appends_one_event_witness :
    transitionTask exS 7 .done 2 99
      = .ok (commit exS (transitionTask exS 7 .done 2 99)) ∧
    (commit exS (transitionTask exS 7 .done 2 99)).activity_logs
      = { seq := exS.nextSeq, user_id := some 2, project_id := some exTask7.project_id,
          action := .status_changed, entity_type := "task", entity_id := 7,
          details := some (.statusChange exTask7.status .done), created_at := 99 }
          :: exS.activity_logs ∧
    (commit exS (transitionTask exS 7 .done 2 99)).tasks.find? (fun x => x.id = 7)
      = some { exTask7 with status := .done, updated_at := 99 } :=
  C4_transition_appends_one_event exS 7 .done 2 99 exTask7 rfl

/-- C3: for every time-entry creation request against an existing task, a
valid request stores exactly the requested hours value, which satisfies
`0.25 ≤ hours ≤ 24` and is an exact multiple of 0.25; a request with hours
outside this domain is rejected with `ValidationError`, creates no row and
leaves every total unchanged. -/
theorem C3_time_entry_validation (s : Store) (tid uid : Nat) (h : ℚ) (d : String)
    (desc : Option String) (now : Nat)
    (htask : s.tasks.any (fun t => t.id = tid) = true) :
    (validHours h →
      recordTime s tid uid h d desc now
        = .ok { s with
            time_logs :=
              { id := s.nextSeq, task_id := tid, user_id := uid, hours := h,
                date := d, description := desc, created_at := now,
                updated_at := now } :: s.time_logs
            nextSeq := s.nextSeq + 1 } ∧
      (1 : ℚ)/4 ≤ h ∧ h ≤ 24 ∧ (4 * h).den = 1) ∧
    (¬ validHours h →
      recordTime s tid uid h d desc now = .error .ValidationError ∧
      commit s (recordTime s tid uid h d desc now) = s ∧
      ∀ tid2, taskTotal (commit s (recordTime s tid uid h d desc now)).time_logs tid2
        = taskTotal s.time_logs tid2) := by
  constructor
  · intro hv
    have hok : recordTime s tid uid h d desc now
        = .ok { s with
            time_logs :=
              { id := s.nextSeq, task_id := tid, user_id := uid, hours := h,
                date := d, description := desc, created_at := now,
                updated_at := now } :: s.time_logs
            nextSeq := s.nextSeq + 1 } := by
      unfold recordTime
      rw [if_pos htask, if_pos hv]
    exact ⟨hok, hv.1, hv.2.1, hv.2.2⟩
  · intro hv
    have herr : recordTime s tid uid h d desc now = .error .ValidationError := by
      unfold recordTime
      rw [if_pos htask, if_neg hv]
    refine ⟨herr, ?_, ?_⟩
    · rw [herr]
      rfl
    · intro tid2
      rw [herr]
      rfl

/-- Witness for C3 at the concrete store: task 7 exists, so the theorem
applies to a request of 1 hour against it. -/
theorem C3_time_entry_validation_witness :
    (validHours 1 →
      recordTime exS 7 2 1 "2024-03-05" none 50
        = .ok { exS with
            time_logs :=
              { id := exS.nextSeq, task_id := 7, user_id := 2, hours := 1,
                date := "2024-03-05", description := none, created_at := 50,
                updated_at := 50 } :: exS.time_logs
            nextSeq := exS.nextSeq + 1 } ∧
      (1 : ℚ)/4 ≤ 1 ∧ (1 : ℚ) ≤ 24 ∧ ((4 : ℚ) * 1).den = 1) ∧
    (¬ validHours 1 →
      recordTime exS 7 2 1 "2024-03-05" none 50 = .error .ValidationError ∧
      commit exS (recordTime exS 7 2 1 "2024-03-05" none 50) = exS ∧
      ∀ tid2, taskTotal (commit exS (recordTime exS 7 2 1 "2024-03-05" none 50)).time_logs tid2
        = taskTotal exS.time_logs tid2) :=
  C3_time_entry_validation exS 7 2 1 "2024-03-05" none 50 rfl

/-- The unique-key invariants of schema.sql: `UNIQUE(team_id, user_id)`,
`UNIQUE(project_id, user_id)`, `UNIQUE(task_id, tag_id)` and the `UNIQUE`
tag name. -/
def uniqueKeys (s : Store) : Prop :=
  (s.team_members.map (fun r => (r.team_id, r.user_id))).Nodup ∧
  (s.project_members.map (fun r => (r.project_id, r.user_id))).Nodup ∧
  (s.task_tags.map (fun r => (r.task_id, r.tag_id))).Nodup ∧
  (s.tags.map (fun t => t.name)).Nodup

instance uniqueKeysDecidable (s : Store) : Decidable (uniqueKeys s) :=
  inferInstanceAs (Decidable (_ ∧ _ ∧ _ ∧ _))

/-- Prepending a row whose key is absent preserves key-uniqueness of the
mapped list. -/
theorem nodup_cons_of_not_any {α β : Type} [DecidableEq β] (key : α → β)
    (r : α) (l : List α) (habs : (l.any (fun x => key x = key r)) = false)
    (hnd : (l.map key).Nodup) : ((r :: l).map key).Nodup := by
  simp only [List.map_cons, List.nodup_cons]
  refine ⟨?_, hnd⟩
  intro hmem
  simp only [List.mem_map] at hmem
  obtain ⟨x, hx, hkey⟩ := hmem
  have : l.any (fun x => key x = key r) = true := by
    simp only [List.any_eq_true, decide_eq_true_eq]
    exact ⟨x, hx, hkey⟩
  rw [this] at habs
  cases habs

/-- C9: after every committed insert, the `(team_id, user_id)`,
`(project_id, user_id)` and `(task_id, tag_id)` pairs are each unique and no
two tags share a name; an insert that would duplicate any of these keys is
rejected and creates no row. -/
theorem C9_unique_keys (s : Store) (hs : uniqueKeys s) :
    (∀ r s', insertTeamMember s r = .ok s' → uniqueKeys s') ∧
    (∀ r s', insertProjectMember s r = .ok s' → uniqueKeys s') ∧
    (∀ r s', insertTaskTag s r = .ok s' → uniqueKeys s') ∧
    (∀ r s', insertTag s r = .ok s' → uniqueKeys s') ∧
    (∀ r, (s.team_members.any
          (fun x => x.team_id = r.team_id ∧ x.user_id = r.user_id)) = true →
        insertTeamMember s r = .error .ValidationError ∧
        commit s (insertTeamMember s r) = s) ∧
    (∀ r, (s.project_members.any
          (fun x => x.project_id = r.project_id ∧ x.user_id = r.user_id)) = true →
        insertProjectMember s r = .error .ValidationError ∧
        commit s (insertProjectMember s r) = s) ∧
    (∀ r, (s.task_tags.any
          (fun x => x.task_id = r.task_id ∧ x.tag_id = r.tag_id)) = true →
        insertTaskTag s r = .error .ValidationError ∧
        commit s (insertTaskTag s r) = s) ∧
    (∀ r, (s.tags.any (fun x => x.name = r.name)) = true →
        insertTag s r = .error .ValidationError ∧
        commit s (insertTag s r) = s) := by
  obtain ⟨h1, h2, h3, h4⟩ := hs
  refine ⟨?_, ?_, ?_, ?_, ?_, ?_, ?_, ?_⟩
  · intro r s' hins
    unfold insertTeamMember at hins
    split at hins
    · simp at hins
    · split at hins
      · injection hins with hins
        subst hins
        refine ⟨?_, h2, h3, h4⟩
        apply nodup_cons_of_not_any _ _ _ ?_ h1
        rename_i hdup _
        rw [Bool.not_eq_true] at hdup
        simp only [List.any_eq_false, decide_eq_true_eq] at hdup ⊢
        intro x hx hk
        rw [Prod.mk.injEq] at hk
        exact hdup x hx ⟨hk.1, hk.2⟩
      · simp at hins
  · intro r s' hins
    unfold insertProjectMember at hins
    split at hins
    · simp at hins
    · split at hins
      · injection hins with hins
        subst hins
        refine ⟨h1, ?_, h3, h4⟩
        apply nodup_cons_of_not_any _ _ _ ?_ h2
        rename_i hdup _
        rw [Bool.not_eq_true] at hdup
        simp only [List.any_eq_false, decide_eq_true_eq] at hdup ⊢
        intro x hx hk
        rw [Prod.mk.injEq] at hk
        exact hdup x hx ⟨hk.1, hk.2⟩
      · simp at hins
  · intro r s' hins
    unfold insertTaskTag at hins
    split at hins
    · simp at hins
    · split at hins
      · injection hins with hins
        subst hins
        refine ⟨h1, h2, ?_, h4⟩
        apply nodup_cons_of_not_any _ _ _ ?_ h3
        rename_i hdup _
        rw [Bool.not_eq_true] at hdup
        simp only [List.any_eq_false, decide_eq_true_eq] at hdup ⊢
        intro x hx hk
        rw [Prod.mk.injEq] at hk
        exact hdup x hx ⟨hk.1, hk.2⟩
      · simp at hins
  · intro r s' hins
    unfold insertTag at hins
    split at hins
    · simp at hins
    · injection hins with hins
      subst hins
      refine ⟨h1, h2, h3, ?_⟩
      apply nodup_cons_of_not_any _ _ _ ?_ h4
      rename_i hdup
      rw [Bool.not_eq_true] at hdup
      exact hdup
  · intro r hdup
    have herr : insertTeamMember s r = .error .ValidationError := by
      unfold insertTeamMember
      rw [if_pos hdup]
    exact ⟨herr, by rw [herr]; rfl⟩
  · intro r hdup
    have herr : insertProjectMember s r = .error .ValidationError := by
      unfold insertProjectMember
      rw [if_pos hdup]
    exact ⟨herr, by rw [herr]; rfl⟩
  · intro r hdup
    have herr : insertTaskTag s r = .error .ValidationError := by
      unfold insertTaskTag
      rw [if_pos hdup]
    exact ⟨herr, by rw [herr]; rfl⟩
  · intro r hdup
    have herr : insertTag s r = .error .ValidationError := by
      unfold insertTag
      rw [if_pos hdup]
    exact ⟨herr, by rw [herr]; rfl⟩

/-- Witness for C9 at the concrete store, whose keys are all unique. -/
theorem C9_unique_keys_witness :
    (∀ r s', insertTeamMember exS r = .ok s' → uniqueKeys s') ∧
    (∀ r s', insertProjectMember exS r = .ok s' → uniqueKeys s') ∧
    (∀ r s', insertTaskTag exS r = .ok s' → uniqueKeys s') ∧
    (∀ r s', insertTag exS r = .ok s' → uniqueKeys s') ∧
    (∀ r, (exS.team_members.any
          (fun x => x.team_id = r.team_id ∧ x.user_id = r.user_id)) = true →
        insertTeamMember exS r = .error .ValidationError ∧
        commit exS (insertTeamMember exS r) = exS) ∧
    (∀ r, (exS.project_members.any
          (fun x => x.project_id = r.project_id ∧ x.user_id = r.user_id)) = true →
        insertProjectMember exS r = .error .ValidationError ∧
        commit exS (insertProjectMember exS r) = exS) ∧
    (∀ r, (exS.task_tags.any
          (fun x => x.task_id = r.task_id ∧ x.tag_id = r.tag_id)) = true →
        insertTaskTag exS r = .error .ValidationError ∧
        commit exS (insertTaskTag exS r) = exS) ∧
    (∀ r, (exS.tags.any (fun x => x.name = r.name)) = true →
        insertTag exS r = .error .ValidationError ∧
        commit exS (insertTag exS r) = exS) :=
  C9_unique_keys exS (by decide)

/-- C10: for every drop of a task onto the column of its current status no
update request is issued and the task list is unchanged; for every drop whose
server update fails, the displayed status of the dragged task is reverted to
exactly the status captured at drag start, so the list never retains a status
the server did not accept. -/
theorem C10_kanban_drop_atomic (tasks : List ClientTask) (d : ClientTask)
    (newStatus : TaskStatus) (hne : ¬ d.status = newStatus)
    (hsync : ∀ t ∈ tasks, t.id = d.id → t.status = d.status) :
    (∀ (ts2 : List ClientTask) (ok2 : Bool), handleDrop ts2 (some d) d.status ok2 = (ts2, false)) ∧
    (∀ (ts3 : List ClientTask) (st : TaskStatus) (ok3 : Bool),
        handleDrop ts3 none st ok3 = (ts3, false)) ∧
    handleDrop tasks (some d) newStatus false = (tasks, true) ∧
    (∀ t ∈ (handleDrop tasks (some d) newStatus false).1,
        t.id = d.id → ¬ t.status = newStatus) := by
  have hdrop : handleDrop tasks (some d) newStatus false
      = ((tasks.map (fun t => if t.id = d.id then { t with status := newStatus } else t)).map
          (fun t => if t.id = d.id then { t with status := d.status } else t), true) := by
    show (if d.status = newStatus then _ else _) = _
    rw [if_neg hne]
    rfl
  have hrestore :
      (tasks.map (fun t => if t.id = d.id then { t with status := newStatus } else t)).map
          (fun t => if t.id = d.id then { t with status := d.status } else t)
        = tasks := by
    rw [List.map_map]
    apply map_id_of_mem
    intro x hx
    by_cases h : x.id = d.id
    · have hst : x.status = d.status := hsync x hx h
      simp [Function.comp, h, ← hst]
      rw [← h]
    · simp [Function.comp, h]
  refine ⟨?_, ?_, ?_, ?_⟩
  · intro ts2 ok2
    show (if d.status = d.status then _ else _) = _
    rw [if_pos rfl]
  · intro ts3 st ok3
    rfl
  · rw [hdrop, hrestore]
  · rw [hdrop, hrestore]
    intro t ht hid
    rw [hsync t ht hid]
    exact hne

/-- Board card for task 7 as the kanban page displays it. -/
def boardTask7 : ClientTask :=
  { id := 7, project_id := 1, title := "Setup project", status := .todo,
    priority := .high, assignee_id := some 2, due_date := none }

/-- Board card for task 8 as the kanban page displays it. -/
def boardTask8 : ClientTask :=
  { id := 8, project_id := 2, title := "Homepage", status := .inprogress,
    priority := .medium, assignee_id := none, due_date := none }

/-- Witness for C10 at a concrete board: dragging task 7 (status `todo`)
onto `done` with a failing server leaves the list exactly as it was, and a
drop onto `todo` issues no request. -/
theorem C10_kanban_drop_atomic_witness :
    (∀ (ts2 : List ClientTask) (ok2 : Bool),
        handleDrop ts2 (some boardTask7) boardTask7.status ok2 = (ts2, false)) ∧
    (∀ (ts3 : List ClientTask) (st : TaskStatus) (ok3 : Bool),
        handleDrop ts3 none st ok3 = (ts3, false)) ∧
    handleDrop [boardTask7, boardTask8] (some boardTask7) TaskStatus.done false
      = ([boardTask7, boardTask8], true) ∧
    (∀ t ∈ (handleDrop [boardTask7, boardTask8] (some boardTask7)
        TaskStatus.done false).1,
        t.id = boardTask7.id → ¬ t.status = TaskStatus.done) :=
  C10_kanban_drop_atomic [boardTask7, boardTask8] boardTask7 TaskStatus.done
    (by decide) (by decide)

/-- Strict newness is irreflexive. -/
theorem evAfter_irrefl (a : ActivityLogRow) : ¬ evAfter a a := by
  simp [evAfter]

/-- Strict newness is asymmetric. -/
theorem evAfter_asymm {a b : ActivityLogRow} (h : evAfter a b) : ¬ evAfter b a := by
  rcases h with h | ⟨he, hs⟩ <;> rintro (h2 | ⟨he2, hs2⟩) <;> omega

/-- The cursor of an event keeps exactly the events strictly older than it. -/
theorem beforeCursor_self_iff (e x : ActivityLogRow) :
    beforeCursor (some (e.created_at, e.seq)) x = true ↔ evAfter e x := by
  simp only [beforeCursor, decide_eq_true_eq, evAfter]
  omega

/-- On a strictly newest-first list, filtering by the cursor of the last
element of a leading block returns exactly the trailing block. -/
theorem filter_before_last (p : List ActivityLogRow) (e : ActivityLogRow)
    (rest : List ActivityLogRow)
    (h : (p ++ e :: rest).Pairwise evAfter) :
    (p ++ e :: rest).filter (beforeCursor (some (e.created_at, e.seq))) = rest := by
  induction p with
  | nil =>
    simp only [List.nil_append] at h ⊢
    rw [List.filter_cons]
    have hff : beforeCursor (some (e.created_at, e.seq)) e = false := by
      rw [← Bool.not_eq_true, beforeCursor_self_iff]
      exact evAfter_irrefl e
    rw [hff, if_neg Bool.false_ne_true]
    apply List.filter_eq_self.mpr
    intro a ha
    rw [beforeCursor_self_iff]
    exact (List.pairwise_cons.mp h).1 a ha
  | cons a p ih =>
    rw [List.cons_append, List.filter_cons]
    have hae : evAfter a e := (List.pairwise_cons.mp h).1 e (by simp)
    have hff : beforeCursor (some (e.created_at, e.seq)) a = false := by
      rw [← Bool.not_eq_true, beforeCursor_self_iff]
      exact evAfter_asymm hae
    rw [hff, if_neg Bool.false_ne_true]
    exact ih (List.pairwise_cons.mp h).2

/-- C6: for a fixed project, `listActivity` returns events strictly ordered
newest first by creation timestamp with equal-timestamp ties broken by the
insertion sequence, consecutive pages obtained through the `before` cursor
form a contiguous block of the full ordered feed (no event skipped or
duplicated), and appending a fresh event under a monotone clock preserves the
strict order. -/
theorem C6_list_activity_ordering_pagination (s : Store) (pid : Option Nat)
    (n m : Nat) (p : List ActivityLogRow) (e : ActivityLogRow)
    (hsorted : s.activity_logs.Pairwise evAfter)
    (hpage : listActivity s pid n none = p ++ [e]) :
    (∀ (limit : Nat) (cur : Option (Nat × Nat)),
        (listActivity s pid limit cur).Pairwise evAfter) ∧
    listActivity s pid n none
        ++ listActivity s pid m (some (e.created_at, e.seq))
      = (s.activity_logs.filter (matchesProject pid)).take (n + m) ∧
    (∀ (actor projectCtx : Option Nat) (act : ActivityAction) (etype : String)
        (eid : Nat) (det : Option ActivityDetail) (now : Nat),
        (∀ ev ∈ s.activity_logs, ev.created_at ≤ now) →
        (∀ ev ∈ s.activity_logs, ev.seq < s.nextSeq) →
        (appendEvent s actor projectCtx act etype eid det now).activity_logs.Pairwise
          evAfter) := by
  have hl : (s.activity_logs.filter (matchesProject pid)).Pairwise evAfter :=
    hsorted.filter _
  refine ⟨?_, ?_, ?_⟩
  · intro limit cur
    exact (hl.filter _).take
  · have hnone : listActivity s pid n none
        = (s.activity_logs.filter (matchesProject pid)).take n := by
      unfold listActivity
      congr 1
      apply List.filter_eq_self.mpr
      intro a _
      rfl
    set l := s.activity_logs.filter (matchesProject pid) with hldef
    rw [hnone] at hpage
    have hsplit : l = p ++ e :: l.drop n := by
      conv_lhs => rw [← List.take_append_drop n l]
      rw [hpage, List.append_assoc]
      rfl
    have hfilter : l.filter (beforeCursor (some (e.created_at, e.seq))) = l.drop n := by
      conv_lhs => rw [hsplit]
      apply filter_before_last
      rw [← hsplit]
      exact hl
    have hpage2 : listActivity s pid m (some (e.created_at, e.seq))
        = (l.drop n).take m := by
      unfold listActivity
      rw [← hldef, hfilter]
    rw [hnone, hpage2, ← List.take_add]
  · intro actor projectCtx act etype eid det now hts hseq
    show List.Pairwise evAfter (_ :: s.activity_logs)
    refine List.Pairwise.cons ?_ hsorted
    intro ev hev
    rcases Nat.lt_or_ge ev.created_at now with hlt | hge
    · exact Or.inl hlt
    · exact Or.inr ⟨(Nat.le_antisymm (hts ev hev) hge).symm, hseq ev hev⟩

/-- Witness for C6 at the concrete store: the project-1 feed is
`[exEv3, exEv2, exEv1]` (a timestamp tie between `exEv2` and `exEv1` broken
by sequence), the first page of size 2 is `[exEv3, exEv2]`, and the next page
via the cursor of `exEv2` continues without skip or duplicate. -/
theorem C6_list_activity_ordering_pagination_witness :
    (∀ (limit : Nat) (cur : Option (Nat × Nat)),
        (listActivity exS (some 1) limit cur).Pairwise evAfter) ∧
    listActivity exS (some 1) 2 none
        ++ listActivity exS (some 1) 2 (some (exEv2.created_at, exEv2.seq))
      = (exS.activity_logs.filter (matchesProject (some 1))).take (2 + 2) ∧
    (∀ (actor projectCtx : Option Nat) (act : ActivityAction) (etype : String)
        (eid : Nat) (det : Option ActivityDetail) (now : Nat),
        (∀ ev ∈ exS.activity_logs, ev.created_at ≤ now) →
        (∀ ev ∈ exS.activity_logs, ev.seq < exS.nextSeq) →
        (appendEvent exS actor projectCtx act etype eid det now).activity_logs.Pairwise
          evAfter) :=
  C6_list_activity_ordering_pagination exS (some 1) 2 2 [exEv3] exEv2
    (by decide) (by decide)

end PMO
